import Mathlib

/-
Verification development for `assembly/benchmark.py`: the `estsummary` and
`rnaseqbench` subcommands that benchmark de-novo assemblies against a known
sequence set.  Python floats are modelled as rationals; Python operations
that can raise (`ZeroDivisionError` from `/`, `KeyError` from dict lookup)
return `Option`, with `none` standing for the raised exception aborting the
run.
-/

set_option autoImplicit false

namespace Benchmark

/-- One BLAST hit record, with the fields `benchmark.py` reads: query id,
subject id, query start/stop and subject start/stop (1-based, signed so that
minus-strand records may have stop < start), alignment length, mismatch
count, gap count. -/
structure BlastLine where
  query : String
  subject : String
  qstart : Int
  qstop : Int
  sstart : Int
  sstop : Int
  hitlen : Nat
  nmismatch : Nat
  ngaps : Nat
deriving DecidableEq

/-- Python true division `a / b` on floats, modelled on rationals:
`ZeroDivisionError` (zero divisor) is `none`. -/
def pydiv (a b : ℚ) : Option ℚ :=
  if b = 0 then none else some (a / b)

/-- The size table `Sizes(fastafile).mapping`: an association list from
sequence id to its length (a Python dict, insertion ordered). -/
abbrev SizeTable := List (String × Nat)

/-- Python dict lookup `sizes[k]`; a missing key (`KeyError`) is `none`. -/
def lookupSize (sizes : SizeTable) (k : String) : Option Nat :=
  match sizes with
  | [] => none
  | (k', v) :: rest => if k' = k then some v else lookupSize rest k

/-- Membership-checked insertion, modelling Python `set.add` on a set kept
as an insertion-ordered duplicate-free list. -/
def setAdd (s : List String) (x : String) : List String :=
  if x ∈ s then s else s ++ [x]

/-- estsummary line 80: `this_covered += abs(b.qstart - b.qstop + 1)` summed
over the group (note the `+ 1` is inside the `abs`). -/
def this_covered (blines : List BlastLine) : Nat :=
  blines.foldl (fun acc b => acc + (b.qstart - b.qstop + 1).natAbs) 0

/-- estsummary line 81: sum of `b.hitlen` over the group. -/
def this_alignlen (blines : List BlastLine) : Nat :=
  blines.foldl (fun acc b => acc + b.hitlen) 0

/-- estsummary line 82: sum of `b.nmismatch` over the group. -/
def this_mismatches (blines : List BlastLine) : Nat :=
  blines.foldl (fun acc b => acc + b.nmismatch) 0

/-- estsummary line 83: sum of `b.ngaps` over the group. -/
def this_gaps (blines : List BlastLine) : Nat :=
  blines.foldl (fun acc b => acc + b.ngaps) 0

/-- estsummary line 85:
`this_identity = 100 - (this_mismatches + this_gaps) * 100. / this_alignlen`.
The division is unguarded in the source, so a zero group aligned length
raises (`none`). -/
def this_identity (blines : List BlastLine) : Option ℚ :=
  match pydiv (((this_mismatches blines + this_gaps blines : Nat) : ℚ) * 100)
      ((this_alignlen blines : Nat) : ℚ) with
  | none => none
  | some x => some (100 - x)

/-- estsummary line 86: `this_coverage = this_covered * 100. / sizes[query]`;
fails on a missing query id or a zero recorded size. -/
def this_coverage (sizes : SizeTable) (query : String) (blines : List BlastLine) :
    Option ℚ :=
  match lookupSize sizes query with
  | none => none
  | some sz => pydiv (((this_covered blines : Nat) : ℚ) * 100) ((sz : Nat) : ℚ)

/-- Default of the `--iden` option (line 41). -/
def defaultIdent : ℚ := 95

/-- Default of the `--cov` option (line 43). -/
def defaultCov : ℚ := 90

/-- Mutable state of estsummary's aggregation loop (lines 59-65). -/
structure EstState where
  covered : Nat
  mismatches : Nat
  gaps : Nat
  alignlen : Nat
  queries : List String
  valid_count : Nat
  mapped_count : Nat
deriving DecidableEq

/-- Initial estsummary loop state (all accumulators zero, empty query set). -/
def estInit : EstState :=
  { covered := 0, mismatches := 0, gaps := 0, alignlen := 0,
    queries := [], valid_count := 0, mapped_count := 0 }

/-- One iteration of estsummary's loop over `blast.iter_hits()`
(lines 68-96): record the query as mapped, aggregate the group, compute
identity and coverage (either may raise, aborting the run), and count the
group as valid when strictly above both cutoffs. -/
def estStep (sizes : SizeTable) (ident cov : ℚ) (st : EstState)
    (g : String × List BlastLine) : Option EstState :=
  match this_identity g.2 with
  | none => none
  | some i =>
    match this_coverage sizes g.1 g.2 with
    | none => none
    | some c =>
      some { covered := st.covered + this_covered g.2,
             mismatches := st.mismatches + this_mismatches g.2,
             gaps := st.gaps + this_gaps g.2,
             alignlen := st.alignlen + this_alignlen g.2,
             queries := setAdd st.queries g.1,
             valid_count := if ident < i ∧ cov < c then st.valid_count + 1
                            else st.valid_count,
             mapped_count := st.mapped_count + 1 }

/-- estsummary's whole aggregation loop, as a monadic fold over the groups
yielded by `blast.iter_hits()`. -/
def estFold (sizes : SizeTable) (ident cov : ℚ)
    (groups : List (String × List BlastLine)) : Option EstState :=
  groups.foldlM (estStep sizes ident cov) estInit

/-- Totals printed by estsummary's summary block. -/
structure EstReport where
  mappedPct : ℚ
  validPct : ℚ
  overallIdent : ℚ
  queries_combined : Nat
  coveragePct : ℚ
deriving DecidableEq

/-- Line 108: `sum(sizes[x] for x in queries)`. -/
def sumSizes (sizes : SizeTable) (qs : List String) : Option Nat :=
  match qs with
  | [] => some 0
  | q :: rest =>
    match lookupSize sizes q with
    | none => none
    | some sz =>
      match sumSizes sizes rest with
      | none => none
      | some acc => some (sz + acc)

/-- estsummary's summary block (lines 98-112), in source order: mapped and
valid percentages divide by `total = len(sizes)`, the overall identity
divides by the total aligned length, the pooled coverage divides by the
combined size of the mapped queries.  Any zero denominator raises. -/
def estReport (sizes : SizeTable) (st : EstState) : Option EstReport :=
  match pydiv ((st.mapped_count : ℚ) * 100) ((sizes.length : Nat) : ℚ) with
  | none => none
  | some mp =>
    match pydiv ((st.valid_count : ℚ) * 100) ((sizes.length : Nat) : ℚ) with
    | none => none
    | some vp =>
      match pydiv (((st.mismatches + st.gaps : Nat) : ℚ) * 100) ((st.alignlen : Nat) : ℚ) with
      | none => none
      | some idp =>
        match sumSizes sizes st.queries with
        | none => none
        | some qc =>
          match pydiv ((st.covered : ℚ) * 100) ((qc : Nat) : ℚ) with
          | none => none
          | some cp =>
            some { mappedPct := mp, validPct := vp, overallIdent := 100 - idp,
                   queries_combined := qc, coveragePct := cp }

/-- The whole estsummary computation after argument parsing: aggregate every
group, then produce the summary report. -/
def estsummaryRun (sizes : SizeTable) (ident cov : ℚ)
    (groups : List (String × List BlastLine)) : Option EstReport :=
  match estFold sizes ident cov groups with
  | none => none
  | some st => estReport sizes st

/-- Python `sys.exit(x)` exit status: `None` maps to status 0, an integer to
itself. -/
def sysExitStatus (x : Option Nat) : Nat :=
  x.getD 0

/-- Return value of optparse's `print_help()`, which prints the usage text
and returns `None`. -/
def printHelpReturn : Option Nat :=
  none

/-- Outcome of a subcommand's argument check: either the process exited with
a status, or it proceeds to the computation with the two file arguments. -/
inductive CliOutcome where
  | exited (status : Nat)
  | proceed (file1 file2 : String)
deriving DecidableEq

/-- estsummary lines 50-53: `sys.exit(p.print_help())` when the positional
argument count differs from 2, else unpack `blastfile, fastafile`. -/
def estsummaryCli (args : List String) : CliOutcome :=
  match args with
  | [blastfile, fastafile] => .proceed blastfile fastafile
  | _ => .exited (sysExitStatus printHelpReturn)

/-- rnaseqbench lines 132-135: same argument check as estsummary. -/
def rnaseqbenchCli (args : List String) : CliOutcome :=
  match args with
  | [blastfile, reffasta] => .proceed blastfile reffasta
  | _ => .exited (sysExitStatus printHelpReturn)

/-- rnaseqbench line 139: the query-filtered artifact path. -/
def querysupermap (blastfile : String) : String :=
  blastfile ++ ".query.supermap"

/-- rnaseqbench line 140: the ref-filtered artifact path. -/
def refsupermap (blastfile : String) : String :=
  blastfile ++ ".ref.supermap"

/-- One invocation of the external `supermap` redundancy filter, with the
file it is given and the filter direction. -/
structure SupermapCall where
  file : String
  direction : String
deriving DecidableEq

/-- rnaseqbench lines 142-145: call `supermap` for each direction whose
artifact is absent from the filesystem (`fsExists` is `op.exists`). -/
def rnaseqbenchSupermapCalls (blastfile : String) (fsExists : String → Bool) :
    List SupermapCall :=
  (if fsExists (querysupermap blastfile) then []
   else [{ file := blastfile, direction := "query" }]) ++
  (if fsExists (refsupermap blastfile) then []
   else [{ file := blastfile, direction := "ref" }])

/-- The two files rnaseqbench's aggregation passes read (lines 147 and 169):
always the two derived artifact paths. -/
def rnaseqbenchReadFiles (blastfile : String) : List String :=
  [querysupermap blastfile, refsupermap blastfile]

/-- Covered reference span of one hit, rnaseqbench lines 154 and 174:
`abs(x.sstop - x.sstart) + 1`. -/
def refSpan (x : BlastLine) : Nat :=
  (x.sstop - x.sstart).natAbs + 1

/-- Add `v` to key `k` of an association list, appending a fresh entry when
the key is new: Python `defaultdict(int)` update `bps[k] += v`. -/
def bumpAssoc (l : List (String × Nat)) (k : String) (v : Nat) :
    List (String × Nat) :=
  match l with
  | [] => [(k, v)]
  | (k', v') :: rest =>
    if k' = k then (k', v' + v) :: rest else (k', v') :: bumpAssoc rest k v

/-- rnaseqbench lines 152-154 (and 172-174): per-subject covered bases of a
list of hits, `bps[x.subject] += abs(x.sstop - x.sstart) + 1`. -/
def subjectBps (hits : List BlastLine) : List (String × Nat) :=
  hits.foldl (fun acc x => bumpAssoc acc x.subject (refSpan x)) []

/-- rnaseqbench line 166: a contig is counted as a chimera when
`len(valid_hits) > 1`, i.e. its per-subject table has more than one entry. -/
def isChimera (hits : List BlastLine) : Bool :=
  decide (1 < (subjectBps hits).length)

/-- Mutable state of rnaseqbench's query-direction pass (lines 148-150). -/
structure RnaseqQueryState where
  chimers : Nat
  goodctg80 : List String
  goodctg50 : List String
deriving DecidableEq

/-- Initial query-direction state. -/
def rqInit : RnaseqQueryState :=
  { chimers := 0, goodctg80 := [], goodctg50 := [] }

/-- rnaseqbench lines 157-163 (one `(vh, length)` item): look up the
reference size, compute `ratio = length * 100. / rsize` (either step may
raise) and add `ctg` to the 80- and 50-bands it reaches. -/
def classifyPair (sizes : SizeTable) (ctg : String)
    (st : List String × List String) (item : String × Nat) :
    Option (List String × List String) :=
  match lookupSize sizes item.1 with
  | none => none
  | some rsize =>
    match pydiv (((item.2 : Nat) : ℚ) * 100) ((rsize : Nat) : ℚ) with
    | none => none
    | some pct =>
      some ((if 80 ≤ pct then setAdd st.1 ctg else st.1),
            (if 50 ≤ pct then setAdd st.2 ctg else st.2))

/-- One iteration of rnaseqbench's loop over `blast.iter_hits()`
(lines 151-167): build the per-subject table, classify every item into the
bands, then count the contig as a chimera when the table has two or more
entries. -/
def processCtg (sizes : SizeTable) (st : RnaseqQueryState)
    (g : String × List BlastLine) : Option RnaseqQueryState :=
  match (subjectBps g.2).foldlM (classifyPair sizes g.1)
      (st.goodctg80, st.goodctg50) with
  | none => none
  | some g8050 =>
    some { chimers := if 1 < (subjectBps g.2).length then st.chimers + 1
                      else st.chimers,
           goodctg80 := g8050.1, goodctg50 := g8050.2 }

/-- rnaseqbench's whole query-direction pass over the grouped query
supermap. -/
def queryPass (sizes : SizeTable) (groups : List (String × List BlastLine)) :
    Option RnaseqQueryState :=
  groups.foldlM (processCtg sizes) rqInit

/-- rnaseqbench lines 169-182: the reference-direction pass aggregates every
line of the ref supermap into one per-subject table and classifies each
subject `vh` into the bands; the loop body coincides with `classifyPair`
with the subject itself as the added element. -/
def refPass (sizes : SizeTable) (lines : List BlastLine) :
    Option (List String × List String) :=
  (subjectBps lines).foldlM (fun st item => classifyPair sizes item.1 st item)
    ([], [])

/-- Figures printed by rnaseqbench's summary block (lines 184-194). -/
structure RnaseqReport where
  nGoodctg80 : Nat
  nGoodctg50 : Nat
  goodref80Pct : ℚ
  goodref50Pct : ℚ
  chimers : Nat
deriving DecidableEq

/-- The whole rnaseqbench computation after the artifacts are in place: both
passes, then the summary, whose reference percentages divide by
`known_genes = len(sizes)` (lines 190-193) and raise when it is zero. -/
def rnaseqRun (sizes : SizeTable) (queryGroups : List (String × List BlastLine))
    (refLines : List BlastLine) : Option RnaseqReport :=
  match queryPass sizes queryGroups with
  | none => none
  | some qst =>
    match refPass sizes refLines with
    | none => none
    | some rr =>
      match pydiv ((rr.1.length : ℚ) * 100) ((sizes.length : Nat) : ℚ) with
      | none => none
      | some p80 =>
        match pydiv ((rr.2.length : ℚ) * 100) ((sizes.length : Nat) : ℚ) with
        | none => none
        | some p50 =>
          some { nGoodctg80 := qst.goodctg80.length,
                 nGoodctg50 := qst.goodctg50.length,
                 goodref80Pct := p80, goodref50Pct := p50,
                 chimers := qst.chimers }

/-- The covered-bases formula as the spec words it (written for comparison
with `this_covered`, which embeds the source): sum over records of
the absolute query-span difference plus one. -/
def specCoveredBases (blines : List BlastLine) : Nat :=
  (blines.map (fun b => (b.qstart - b.qstop).natAbs + 1)).sum

/-- A hit whose alignment length is zero. -/
def zeroLenHit : BlastLine :=
  { query := "q1", subject := "s1", qstart := 1, qstop := 1,
    sstart := 1, sstop := 1, hitlen := 0, nmismatch := 0, ngaps := 0 }

/-- A plus-strand hit spanning query positions 1..10. -/
def plusStrandHit : BlastLine :=
  { query := "est1", subject := "chr1", qstart := 1, qstop := 10,
    sstart := 1, sstop := 10, hitlen := 10, nmismatch := 0, ngaps := 0 }

/-- The same span reported on the minus strand: qstop < qstart. -/
def minusStrandHit : BlastLine :=
  { query := "est1", subject := "chr1", qstart := 10, qstop := 1,
    sstart := 1, sstop := 10, hitlen := 10, nmismatch := 2, ngaps := 1 }

/-- A well-behaved hit: query span 10, alignment length 100 with 2
mismatches and 1 gap (identity 97). -/
def demoHit : BlastLine :=
  { query := "q1", subject := "s1", qstart := 10, qstop := 1,
    sstart := 1, sstop := 10, hitlen := 100, nmismatch := 2, ngaps := 1 }

/-- A size table with the single query of `demoHit`, of length 10. -/
def demoSizes : SizeTable := [("q1", 10)]

/-- One-base retained alignment of contig `ctg1` on subject `geneA`. -/
def chimHit1 : BlastLine :=
  { query := "ctg1", subject := "geneA", qstart := 1, qstop := 1,
    sstart := 5, sstop := 5, hitlen := 1, nmismatch := 0, ngaps := 0 }

/-- One-base retained alignment of contig `ctg1` on subject `geneB`. -/
def chimHit2 : BlastLine :=
  { query := "ctg1", subject := "geneB", qstart := 2, qstop := 2,
    sstart := 9, sstop := 9, hitlen := 1, nmismatch := 0, ngaps := 0 }

/-- Reference sizes for the two subjects touched by `chimHit1`/`chimHit2`. -/
def chimSizes : SizeTable := [("geneA", 1000), ("geneB", 1000)]

/-- The spec's running example: contig `ctg1` covering subject coordinates
1..850 of `geneA` (850 covered bases of a 1000-base reference). -/
def coverHit : BlastLine :=
  { query := "ctg1", subject := "geneA", qstart := 1, qstop := 850,
    sstart := 1, sstop := 850, hitlen := 850, nmismatch := 0, ngaps := 0 }

/-- Reference sizes for the coverage example. -/
def coverSizes : SizeTable := [("geneA", 1000)]

/-- An invariant preserved by each `Option`-valued step of a monadic fold
holds of any successful fold result. -/
theorem foldlM_option_inv {α β : Type} (P : β → Prop) (f : β → α → Option β)
    (hf : ∀ b a b', f b a = some b' → P b → P b') :
    ∀ (l : List α) (b b' : β), l.foldlM f b = some b' → P b → P b' := by
  intro l
  induction l with
  | nil =>
    intro b b' h hp
    simp [List.foldlM] at h
    exact h ▸ hp
  | cons x xs ih =>
    intro b b' h hp
    rw [show (x :: xs).foldlM f b = (f b x).bind (fun bb => xs.foldlM f bb) by
      simp [List.foldlM]] at h
    cases hfb : f b x with
    | none => rw [hfb] at h; exact absurd h (by simp)
    | some bb =>
      rw [hfb] at h
      exact ih bb b' h (hf b x bb hfb hp)

/-- A zero group aligned length makes `this_identity` raise. -/
theorem this_identity_eq_none {blines : List BlastLine}
    (h : this_alignlen blines = 0) : this_identity blines = none := by
  simp [this_identity, pydiv, h]

/-- C1 counterexample: on a group whose only hit has alignment length 0, the
identity computation raises `ZeroDivisionError` (modelled `none`) and the
whole loop iteration aborts — no 0 or sentinel value is produced. -/
theorem est_identity_fault_at_zero_alignlen :
    this_identity [zeroLenHit] = none ∧
    estStep demoSizes 95 90 estInit ("q1", [zeroLenHit]) = none := by
  constructor
  · exact this_identity_eq_none (by decide)
  · simp [estStep, this_identity_eq_none (show this_alignlen [zeroLenHit] = 0 by decide)]

/-- C1 (amended): estsummary's identity computation is not guarded: whenever
a group's total aligned length is 0, the division raises and the run aborts
at that group; no 0 or sentinel identity is ever reported for it. -/
theorem est_zero_alignlen_aborts (sizes : SizeTable) (ident cov : ℚ)
    (st : EstState) (q : String) (blines : List BlastLine)
    (h : this_alignlen blines = 0) :
    estStep sizes ident cov st (q, blines) = none := by
  simp [estStep, this_identity_eq_none h]

/-- C1 witness: the amended statement at a concrete zero-length group. -/
theorem est_zero_alignlen_aborts_witness :
    estStep [] 95 90 estInit ("qz", [zeroLenHit]) = none :=
  est_zero_alignlen_aborts [] 95 90 estInit "qz" [zeroLenHit] (by decide)

/-- C2: estsummary line 80 adds `abs(qstart - qstop + 1)`, not
`abs(qstart - qstop) + 1`: on a plus-strand hit spanning query positions
1..10 the code counts 8 covered bases while the spec's formula gives 10;
the two only agree on minus-strand (or single-base) records. -/
theorem est_covered_plus_strand_bug :
    this_covered [plusStrandHit] = 8 ∧
    specCoveredBases [plusStrandHit] = 10 ∧
    this_covered [minusStrandHit] = specCoveredBases [minusStrandHit] := by
  decide

/-- C3 counterexample: called with one positional argument, both subcommands
exit with status 0 (`sys.exit` receives the `None` returned by
`print_help()`), not a non-zero status. -/
theorem usage_exit_status_zero :
    estsummaryCli ["lonearg"] = CliOutcome.exited 0 ∧
    rnaseqbenchCli ["lonearg"] = CliOutcome.exited 0 := by
  constructor <;> rfl

/-- C3 (amended): with an argument count different from 2, both subcommands
print the usage help and exit before any computation is attempted, but with
exit status 0 — `sys.exit(p.print_help())` passes `None` to `sys.exit`. -/
theorem usage_exits_zero (args : List String) (h : args.length ≠ 2) :
    estsummaryCli args = CliOutcome.exited 0 ∧
    rnaseqbenchCli args = CliOutcome.exited 0 := by
  rcases args with _ | ⟨a, _ | ⟨b, _ | ⟨c, rest⟩⟩⟩
  · exact ⟨rfl, rfl⟩
  · exact ⟨rfl, rfl⟩
  · simp at h
  · exact ⟨rfl, rfl⟩

/-- C3 witness: the amended statement at an empty argument list. -/
theorem usage_exits_zero_witness :
    estsummaryCli [] = CliOutcome.exited 0 ∧
    rnaseqbenchCli [] = CliOutcome.exited 0 :=
  usage_exits_zero [] (by decide)

/-- C10: with an empty size table (and an empty alignment stream, so that
the aggregation itself succeeds), estsummary aborts with a division fault at
the mapped/valid percentage computation and rnaseqbench at the
reference-coverage percentage computation, instead of reporting zeros. -/
theorem empty_size_table_division_fault :
    ∀ ident cov : ℚ,
    estFold [] ident cov [] = some estInit ∧
    estsummaryRun [] ident cov [] = none ∧
    queryPass [] [] = some rqInit ∧
    refPass [] [] = some ([], []) ∧
    rnaseqRun [] [] [] = none := by
  intro ident cov
  refine ⟨by simp [estFold, List.foldlM], ?_, by simp [queryPass, List.foldlM],
    by simp [refPass, subjectBps, List.foldlM], ?_⟩
  · simp [estsummaryRun, estFold, List.foldlM, estReport, pydiv]
  · simp [rnaseqRun, queryPass, refPass, subjectBps, List.foldlM, pydiv]

/-- Membership in `setAdd`: the old members plus the added element. -/
theorem mem_setAdd {s : List String} {x y : String} :
    y ∈ setAdd s x ↔ y ∈ s ∨ y = x := by
  unfold setAdd
  split
  · next hx =>
    constructor
    · exact Or.inl
    · rintro (h | rfl)
      · exact h
      · exact hx
  · simp [List.mem_append]

/-- Keys of `bumpAssoc`: unchanged for a known key, appended for a new
one. -/
theorem bumpAssoc_keys (l : List (String × Nat)) (k : String) (v : Nat) :
    (bumpAssoc l k v).map Prod.fst =
      if k ∈ l.map Prod.fst then l.map Prod.fst else l.map Prod.fst ++ [k] := by
  induction l with
  | nil => simp [bumpAssoc]
  | cons p rest ih =>
    obtain ⟨k', v'⟩ := p
    by_cases hk : k' = k
    · subst hk
      simp [bumpAssoc]
    · have hk' : ¬ k = k' := fun h => hk h.symm
      simp only [bumpAssoc, if_neg hk, List.map_cons]
      rw [ih]
      by_cases hm : k ∈ rest.map Prod.fst
      · simp [hm, hk']
      · simp [hm, hk']

/-- `bumpAssoc` preserves distinctness of keys. -/
theorem bumpAssoc_keys_nodup (l : List (String × Nat)) (k : String) (v : Nat)
    (h : (l.map Prod.fst).Nodup) : ((bumpAssoc l k v).map Prod.fst).Nodup := by
  rw [bumpAssoc_keys]
  split
  · exact h
  · next hm => simp [List.nodup_append, h, hm]

/-- The key set of `bumpAssoc` is the old key set with `k` inserted. -/
theorem bumpAssoc_keys_toFinset (l : List (String × Nat)) (k : String) (v : Nat) :
    ((bumpAssoc l k v).map Prod.fst).toFinset
      = insert k (l.map Prod.fst).toFinset := by
  rw [bumpAssoc_keys]
  split
  · next hm => rw [Finset.insert_eq_self.mpr (by simpa using hm)]
  · next hm =>
    simp only [List.toFinset_append, List.toFinset_cons, List.toFinset_nil,
      insert_emptyc_eq]
    rw [Finset.union_comm]
    rfl

/-- Folding hits into a per-subject table: the key set accumulates exactly
the subjects seen, and key distinctness is preserved. -/
theorem subjectBps_fold (hits : List BlastLine) :
    ∀ acc : List (String × Nat),
    (((hits.foldl (fun a x => bumpAssoc a x.subject (refSpan x)) acc).map
        Prod.fst).toFinset
      = (acc.map Prod.fst).toFinset ∪ (hits.map BlastLine.subject).toFinset) ∧
    ((acc.map Prod.fst).Nodup →
      ((hits.foldl (fun a x => bumpAssoc a x.subject (refSpan x)) acc).map
        Prod.fst).Nodup) := by
  induction hits with
  | nil => intro acc; simp
  | cons x hits ih =>
    intro acc
    simp only [List.foldl_cons, List.map_cons, List.toFinset_cons]
    constructor
    · rw [(ih (bumpAssoc acc x.subject (refSpan x))).1, bumpAssoc_keys_toFinset]
      rw [Finset.insert_union, Finset.union_insert]
    · intro h
      exact (ih _).2 (bumpAssoc_keys_nodup _ _ _ h)

/-- The per-subject table of a group has exactly one entry per distinct
subject id occurring in the group. -/
theorem subjectBps_length (hits : List BlastLine) :
    (subjectBps hits).length = (hits.map BlastLine.subject).toFinset.card := by
  have h1 : ((subjectBps hits).map Prod.fst).toFinset.card
      = ((subjectBps hits).map Prod.fst).length :=
    List.toFinset_card_of_nodup ((subjectBps_fold hits []).2 (by simp))
  have h2 : ((subjectBps hits).map Prod.fst).toFinset
      = (hits.map BlastLine.subject).toFinset := by
    simpa [subjectBps] using (subjectBps_fold hits []).1
  rw [h2] at h1
  simpa using h1.symm

/-- C4: a loop iteration of rnaseqbench counts a contig as a chimera exactly
when its retained records mention at least two distinct subject ids; one
subject, however many fragments, leaves the chimera count unchanged. -/
theorem chimera_iff_two_distinct_subjects (sizes : SizeTable)
    (st : RnaseqQueryState) (g : String × List BlastLine)
    (st' : RnaseqQueryState) (h : processCtg sizes st g = some st') :
    (st'.chimers = st.chimers + 1
        ↔ 2 ≤ (g.2.map BlastLine.subject).toFinset.card) ∧
    (st'.chimers = st.chimers
        ↔ (g.2.map BlastLine.subject).toFinset.card ≤ 1) := by
  unfold processCtg at h
  cases hf : (subjectBps g.2).foldlM (classifyPair sizes g.1)
      (st.goodctg80, st.goodctg50) with
  | none => rw [hf] at h; cases h
  | some g8050 =>
    rw [hf] at h
    simp only [Option.some.injEq] at h
    subst h
    dsimp only
    have hlen := subjectBps_length g.2
    by_cases h2 : 1 < (subjectBps g.2).length
    · rw [if_pos h2]
      rw [hlen] at h2
      exact ⟨⟨fun _ => by omega, fun _ => rfl⟩,
        ⟨fun hx => by omega, fun hx => by omega⟩⟩
    · rw [if_neg h2]
      rw [hlen] at h2
      exact ⟨⟨fun hx => by omega, fun hx => by omega⟩,
        ⟨fun _ => by omega, fun _ => rfl⟩⟩

/-- C4 witness: a contig with one-base retained alignments on two distinct
subjects is counted as a chimera. -/
theorem chimera_iff_two_distinct_subjects_witness :
    ((1 : Nat) = 0 + 1
      ↔ 2 ≤ (([chimHit1, chimHit2].map BlastLine.subject).toFinset.card)) ∧
    ((1 : Nat) = 0
      ↔ (([chimHit1, chimHit2].map BlastLine.subject).toFinset.card) ≤ 1) :=
  chimera_iff_two_distinct_subjects chimSizes rqInit ("ctg1", [chimHit1, chimHit2])
    { chimers := 1, goodctg80 := [], goodctg50 := [] }
    (by norm_num [processCtg, subjectBps, bumpAssoc, refSpan, classifyPair,
      lookupSize, pydiv, List.foldlM, chimHit1, chimHit2, chimSizes, rqInit,
      setAdd]; decide)

/-- C6: a loop iteration of estsummary counts the query as valid exactly
when its identity percentage is strictly above the identity cutoff and its
coverage percentage strictly above the coverage cutoff; equality with either
cutoff is not valid.  The cutoffs default to 95 and 90. -/
theorem valid_iff_strict_thresholds (sizes : SizeTable) (ident cov : ℚ)
    (st : EstState) (q : String) (blines : List BlastLine) (st' : EstState)
    (i c : ℚ) (hstep : estStep sizes ident cov st (q, blines) = some st')
    (hi : this_identity blines = some i)
    (hc : this_coverage sizes q blines = some c) :
    (st'.valid_count = st.valid_count + 1 ↔ (ident < i ∧ cov < c)) ∧
    (st'.valid_count = st.valid_count ↔ ¬(ident < i ∧ cov < c)) ∧
    defaultIdent = 95 ∧ defaultCov = 90 := by
  unfold estStep at hstep
  rw [show ((q, blines) : String × List BlastLine).2 = blines from rfl, hi] at hstep
  rw [show ((q, blines) : String × List BlastLine).1 = q from rfl] at hstep
  rw [hc] at hstep
  simp only [Option.some.injEq] at hstep
  subst hstep
  dsimp only
  by_cases hv : ident < i ∧ cov < c
  · rw [if_pos hv]
    exact ⟨⟨fun _ => hv, fun _ => rfl⟩,
      ⟨fun hx => by omega, fun hx => absurd hv hx⟩, rfl, rfl⟩
  · rw [if_neg hv]
    exact ⟨⟨fun hx => by omega, fun hx => absurd hx hv⟩,
      ⟨fun _ => hv, fun _ => rfl⟩, rfl, rfl⟩

/-- C6 witness: a query with identity 97 and coverage 100 against the
default cutoffs 95 and 90 is counted as valid. -/
theorem valid_iff_strict_thresholds_witness :
    ((1 : Nat) = 0 + 1 ↔ ((95 : ℚ) < 97 ∧ (90 : ℚ) < 100)) ∧
    ((1 : Nat) = 0 ↔ ¬((95 : ℚ) < 97 ∧ (90 : ℚ) < 100)) ∧
    defaultIdent = 95 ∧ defaultCov = 90 :=
  valid_iff_strict_thresholds demoSizes 95 90 estInit "q1" [demoHit]
    { covered := 10, mismatches := 2, gaps := 1, alignlen := 100,
      queries := ["q1"], valid_count := 1, mapped_count := 1 } 97 100
    (by norm_num [estStep, this_identity, this_coverage, this_mismatches,
      this_gaps, this_alignlen, this_covered, lookupSize, demoHit, demoSizes,
      pydiv, estInit, setAdd])
    (by norm_num [this_identity, this_mismatches, this_gaps, this_alignlen,
      demoHit, pydiv])
    (by norm_num [this_coverage, lookupSize, this_covered, demoHit, demoSizes,
      pydiv])

/-- C5: rnaseqbench derives exactly the two artifact paths by appending the
fixed suffixes, invokes the supermap filter for a direction exactly when
that direction's artifact is absent, and when both artifacts exist invokes
no filter at all while both passes read the two existing artifacts. -/
theorem supermap_memoization (blastfile : String) (fsExists : String → Bool) :
    rnaseqbenchReadFiles blastfile
      = [blastfile ++ ".query.supermap", blastfile ++ ".ref.supermap"] ∧
    (({ file := blastfile, direction := "query" } : SupermapCall)
        ∈ rnaseqbenchSupermapCalls blastfile fsExists
      ↔ fsExists (blastfile ++ ".query.supermap") = false) ∧
    (({ file := blastfile, direction := "ref" } : SupermapCall)
        ∈ rnaseqbenchSupermapCalls blastfile fsExists
      ↔ fsExists (blastfile ++ ".ref.supermap") = false) ∧
    (fsExists (blastfile ++ ".query.supermap") = true →
      fsExists (blastfile ++ ".ref.supermap") = true →
      rnaseqbenchSupermapCalls blastfile fsExists = []) := by
  cases hq : fsExists (blastfile ++ ".query.supermap") <;>
    cases hr : fsExists (blastfile ++ ".ref.supermap") <;>
    simp [rnaseqbenchSupermapCalls, rnaseqbenchReadFiles, querysupermap,
      refsupermap, hq, hr, SupermapCall.mk.injEq]

/-- C5 witness: when both artifacts exist no filter call is made. -/
theorem supermap_memoization_witness :
    rnaseqbenchSupermapCalls "aln.blast" (fun _ => true) = [] :=
  (supermap_memoization "aln.blast" (fun _ => true)).2.2.2 rfl rfl

/-- A successful estsummary loop iteration increments the mapped count by
one and the valid count by zero or one. -/
theorem estStep_counts (sizes : SizeTable) (ident cov : ℚ) (st : EstState)
    (g : String × List BlastLine) (st' : EstState)
    (h : estStep sizes ident cov st g = some st') :
    st'.mapped_count = st.mapped_count + 1 ∧
    (st'.valid_count = st.valid_count ∨ st'.valid_count = st.valid_count + 1) := by
  unfold estStep at h
  cases hi : this_identity g.2 with
  | none => rw [hi] at h; cases h
  | some i =>
    rw [hi] at h
    cases hc : this_coverage sizes g.1 g.2 with
    | none => rw [hc] at h; cases h
    | some c =>
      rw [hc] at h
      simp only [Option.some.injEq] at h
      subst h
      refine ⟨rfl, ?_⟩
      by_cases hv : ident < i ∧ cov < c
      · right; dsimp only; rw [if_pos hv]
      · left; dsimp only; rw [if_neg hv]

/-- A successful estsummary aggregation maps exactly one count per yielded
group. -/
theorem estFold_mapped (sizes : SizeTable) (ident cov : ℚ) :
    ∀ (groups : List (String × List BlastLine)) (st0 st : EstState),
    groups.foldlM (estStep sizes ident cov) st0 = some st →
    st.mapped_count = st0.mapped_count + groups.length := by
  intro groups
  induction groups with
  | nil =>
    intro st0 st h
    simp [List.foldlM] at h
    subst h
    simp
  | cons g rest ih =>
    intro st0 st h
    rw [show (g :: rest).foldlM (estStep sizes ident cov) st0
        = (estStep sizes ident cov st0 g).bind
          (fun b => rest.foldlM (estStep sizes ident cov) b) by
      simp [List.foldlM]] at h
    cases hs : estStep sizes ident cov st0 g with
    | none => rw [hs] at h; cases h
    | some st1 =>
      rw [hs] at h
      simp only [Option.some_bind] at h
      have h1 := (estStep_counts sizes ident cov st0 g st1 hs).1
      have h2 := ih st1 st h
      simp only [List.length_cons]
      omega

/-- C7: after any successful run of estsummary's aggregation (hence after
any prefix of the stream, since the group list is universally quantified)
the valid count never exceeds the mapped count; and under the claim's
preconditions — every yielded query id is in the size table and no query
group is yielded twice — the mapped count never exceeds the number of known
queries. -/
theorem est_counts_invariant (sizes : SizeTable) (ident cov : ℚ)
    (groups : List (String × List BlastLine)) (st : EstState)
    (h : estFold sizes ident cov groups = some st) :
    st.valid_count ≤ st.mapped_count ∧
    ((groups.map Prod.fst).Nodup →
      (∀ g ∈ groups, g.1 ∈ sizes.map Prod.fst) →
      st.mapped_count ≤ sizes.length) := by
  constructor
  · exact foldlM_option_inv
      (P := fun s : EstState => s.valid_count ≤ s.mapped_count)
      (estStep sizes ident cov)
      (fun b a b' hb hp => by
        obtain ⟨h1, h2⟩ := estStep_counts sizes ident cov b a b' hb
        rcases h2 with h2 | h2 <;> omega)
      groups estInit st h (by simp [estInit])
  · intro hnd hmem
    have hm : st.mapped_count = groups.length := by
      have hx := estFold_mapped sizes ident cov groups estInit st h
      simpa [estInit] using hx
    have hsub : groups.map Prod.fst ⊆ sizes.map Prod.fst := by
      intro x hx
      obtain ⟨g, hg, rfl⟩ := List.mem_map.mp hx
      exact hmem g hg
    have hle := (hnd.subperm hsub).length_le
    simp only [List.length_map] at hle
    omega

/-- C7 witness: a concrete one-group run with one known query. -/
theorem est_counts_invariant_witness :
    (1 : Nat) ≤ 1 ∧ (1 : Nat) ≤ 1 := by
  have h := est_counts_invariant demoSizes 95 90 [("q1", [demoHit])]
    { covered := 10, mismatches := 2, gaps := 1, alignlen := 100,
      queries := ["q1"], valid_count := 1, mapped_count := 1 }
    (by norm_num [estFold, List.foldlM, estStep, this_identity, this_coverage,
      this_mismatches, this_gaps, this_alignlen, this_covered, lookupSize,
      demoHit, demoSizes, pydiv, estInit, setAdd])
  refine ⟨h.1, h.2 (by simp) ?_⟩
  intro g hg
  simp only [List.mem_singleton] at hg
  subst hg
  simp [demoSizes]

/-- A successful band classification of one `(subject, length)` item keeps
the 80-band inside the 50-band. -/
theorem classifyPair_subset (sizes : SizeTable) (ctg : String)
    (st st' : List String × List String) (item : String × Nat)
    (h : classifyPair sizes ctg st item = some st')
    (hsub : ∀ x ∈ st.1, x ∈ st.2) : ∀ x ∈ st'.1, x ∈ st'.2 := by
  unfold classifyPair at h
  cases hl : lookupSize sizes item.1 with
  | none => simp only [hl] at h; exact Option.noConfusion h
  | some rsize =>
    simp only [hl] at h
    cases hp : pydiv (((item.2 : Nat) : ℚ) * 100) ((rsize : Nat) : ℚ) with
    | none => simp only [hp] at h; exact Option.noConfusion h
    | some pct =>
      simp only [hp, Option.some.injEq] at h
      subst h
      intro x hx
      dsimp only at hx ⊢
      by_cases h80 : (80 : ℚ) ≤ pct
      · rw [if_pos h80] at hx
        have h50 : (50 : ℚ) ≤ pct := by linarith
        rw [if_pos h50]
        rcases mem_setAdd.mp hx with hmem | rfl
        · exact mem_setAdd.mpr (Or.inl (hsub x hmem))
        · exact mem_setAdd.mpr (Or.inr rfl)
      · rw [if_neg h80] at hx
        by_cases h50 : (50 : ℚ) ≤ pct
        · rw [if_pos h50]
          exact mem_setAdd.mpr (Or.inl (hsub x hx))
        · rw [if_neg h50]
          exact hsub x hx

/-- A successful rnaseqbench loop iteration keeps the contig 80-band inside
the contig 50-band. -/
theorem processCtg_subset (sizes : SizeTable) (st : RnaseqQueryState)
    (g : String × List BlastLine) (st' : RnaseqQueryState)
    (h : processCtg sizes st g = some st')
    (hsub : ∀ x ∈ st.goodctg80, x ∈ st.goodctg50) :
    ∀ x ∈ st'.goodctg80, x ∈ st'.goodctg50 := by
  unfold processCtg at h
  cases hf : (subjectBps g.2).foldlM (classifyPair sizes g.1)
      (st.goodctg80, st.goodctg50) with
  | none => rw [hf] at h; cases h
  | some g8050 =>
    rw [hf] at h
    simp only [Option.some.injEq] at h
    subst h
    dsimp only
    exact foldlM_option_inv
      (P := fun p : List String × List String => ∀ x ∈ p.1, x ∈ p.2)
      (classifyPair sizes g.1)
      (fun b a b' hb hp => classifyPair_subset sizes g.1 b b' a hb hp)
      (subjectBps g.2) (st.goodctg80, st.goodctg50) g8050 hf hsub

/-- C8: in every completed rnaseqbench run, the 80-band is a subset of the
50-band, both for the contig-level sets of the query-direction pass and for
the reference-level sets of the reference-direction pass. -/
theorem band80_subset_band50 (sizes : SizeTable)
    (groups : List (String × List BlastLine)) (lines : List BlastLine)
    (qst : RnaseqQueryState) (rr : List String × List String)
    (hq : queryPass sizes groups = some qst)
    (hr : refPass sizes lines = some rr) :
    (∀ x ∈ qst.goodctg80, x ∈ qst.goodctg50) ∧ (∀ x ∈ rr.1, x ∈ rr.2) := by
  constructor
  · unfold queryPass at hq
    exact foldlM_option_inv
      (P := fun s : RnaseqQueryState => ∀ x ∈ s.goodctg80, x ∈ s.goodctg50)
      (processCtg sizes)
      (fun b a b' hb hp => processCtg_subset sizes b a b' hb hp)
      groups rqInit qst hq (by simp [rqInit])
  · unfold refPass at hr
    exact foldlM_option_inv
      (P := fun p : List String × List String => ∀ x ∈ p.1, x ∈ p.2)
      (fun s item => classifyPair sizes item.1 s item)
      (fun b a b' hb hp => classifyPair_subset sizes a.1 b b' a hb hp)
      (subjectBps lines) ([], []) rr hr (by simp)

/-- C8 witness: the spec's example — a contig covering 850 of a 1000-base
reference lands in both bands, in both directions. -/
theorem band80_subset_band50_witness :
    ("ctg1" : String) ∈ (["ctg1"] : List String) ∧
    ("geneA" : String) ∈ (["geneA"] : List String) := by
  have h := band80_subset_band50 coverSizes [("ctg1", [coverHit])] [coverHit]
    { chimers := 0, goodctg80 := ["ctg1"], goodctg50 := ["ctg1"] }
    (["geneA"], ["geneA"])
    (by norm_num [queryPass, List.foldlM, processCtg, subjectBps, bumpAssoc,
      refSpan, classifyPair, lookupSize, pydiv, coverHit, coverSizes, rqInit,
      setAdd])
    (by norm_num [refPass, List.foldlM, subjectBps, bumpAssoc, refSpan,
      classifyPair, lookupSize, pydiv, coverHit, coverSizes, setAdd])
  exact ⟨h.1 "ctg1" (by simp), h.2 "geneA" (by simp)⟩

/-- When every item of the table falls strictly below the 50 percent band,
one band classification step changes nothing. -/
theorem classifyPair_no_band (sizes : SizeTable) (ctg : String)
    (st st' : List String × List String) (item : String × Nat)
    (h : classifyPair sizes ctg st item = some st')
    (hlow : ∀ rsize : Nat, lookupSize sizes item.1 = some rsize →
      ((item.2 : Nat) : ℚ) * 100 / ((rsize : Nat) : ℚ) < 50) :
    st' = st := by
  unfold classifyPair at h
  cases hl : lookupSize sizes item.1 with
  | none => simp only [hl] at h; exact Option.noConfusion h
  | some rsize =>
    simp only [hl] at h
    cases hp : pydiv (((item.2 : Nat) : ℚ) * 100) ((rsize : Nat) : ℚ) with
    | none => simp only [hp] at h; exact Option.noConfusion h
    | some pct =>
      simp only [hp, Option.some.injEq] at h
      have hpcteq : pct = ((item.2 : Nat) : ℚ) * 100 / ((rsize : Nat) : ℚ) := by
        unfold pydiv at hp
        split at hp
        · cases hp
        · exact (Option.some.inj hp).symm
      have hpct : pct < 50 := hpcteq ▸ hlow rsize hl
      have h80 : ¬ (80 : ℚ) ≤ pct := by linarith
      have h50 : ¬ (50 : ℚ) ≤ pct := by linarith
      rw [if_neg h80, if_neg h50] at h
      exact h.symm

/-- When every item of a table falls strictly below the 50 percent band,
the whole classification fold changes nothing. -/
theorem classify_fold_no_band (sizes : SizeTable) (ctg : String)
    (items : List (String × Nat)) :
    ∀ st st' : List String × List String,
    items.foldlM (classifyPair sizes ctg) st = some st' →
    (∀ p ∈ items, ∀ rsize : Nat, lookupSize sizes p.1 = some rsize →
      ((p.2 : Nat) : ℚ) * 100 / ((rsize : Nat) : ℚ) < 50) →
    st' = st := by
  induction items with
  | nil =>
    intro st st' h _
    simp [List.foldlM] at h
    exact h.symm
  | cons it rest ih =>
    intro st st' h hlow
    rw [show (it :: rest).foldlM (classifyPair sizes ctg) st
        = (classifyPair sizes ctg st it).bind
          (fun b => rest.foldlM (classifyPair sizes ctg) b) by
      simp [List.foldlM]] at h
    cases hc : classifyPair sizes ctg st it with
    | none => rw [hc] at h; cases h
    | some st1 =>
      rw [hc] at h
      simp only [Option.some_bind] at h
      have h1 : st1 = st :=
        classifyPair_no_band sizes ctg st st1 it hc
          (fun r hr => hlow it (by simp) r hr)
      subst h1
      exact ih st1 st' h (fun p hp => hlow p (by simp [hp]))

/-- C9: the chimera classification has no minimum covered-length threshold
and does not consult the coverage bands: a contig whose retained alignments
reach a second distinct subject is counted as a chimera even when every one
of its per-subject covered lengths is strictly below the 50 percent band, in
which case it joins neither band set. -/
theorem chimera_no_min_length (sizes : SizeTable) (st : RnaseqQueryState)
    (g : String × List BlastLine) (st' : RnaseqQueryState)
    (h : processCtg sizes st g = some st')
    (h2 : 2 ≤ (g.2.map BlastLine.subject).toFinset.card)
    (hlow : ∀ p ∈ subjectBps g.2, ∀ rsize : Nat,
      lookupSize sizes p.1 = some rsize →
      ((p.2 : Nat) : ℚ) * 100 / ((rsize : Nat) : ℚ) < 50) :
    st'.chimers = st.chimers + 1 ∧ st'.goodctg80 = st.goodctg80 ∧
    st'.goodctg50 = st.goodctg50 := by
  unfold processCtg at h
  cases hf : (subjectBps g.2).foldlM (classifyPair sizes g.1)
      (st.goodctg80, st.goodctg50) with
  | none => rw [hf] at h; cases h
  | some g8050 =>
    rw [hf] at h
    simp only [Option.some.injEq] at h
    subst h
    have heq : g8050 = (st.goodctg80, st.goodctg50) :=
      classify_fold_no_band sizes g.1 (subjectBps g.2) _ _ hf hlow
    subst heq
    have hlen : 1 < (subjectBps g.2).length := by
      rw [subjectBps_length]
      omega
    dsimp only
    rw [if_pos hlen]
    exact ⟨rfl, rfl, rfl⟩

/-- C9 witness: one covered base on each of two 1000-base subjects — far
below both bands — still counts the contig as a chimera and adds it to
neither band set. -/
theorem chimera_no_min_length_witness :
    (1 : Nat) = 0 + 1 ∧ ([] : List String) = [] ∧ ([] : List String) = [] := by
  have hbps : subjectBps [chimHit1, chimHit2] = [("geneA", 1), ("geneB", 1)] := by
    simp [subjectBps, bumpAssoc, refSpan, chimHit1, chimHit2]
  refine chimera_no_min_length chimSizes rqInit ("ctg1", [chimHit1, chimHit2])
    { chimers := 1, goodctg80 := [], goodctg50 := [] }
    (by norm_num [processCtg, subjectBps, bumpAssoc, refSpan, classifyPair,
      lookupSize, pydiv, List.foldlM, chimHit1, chimHit2, chimSizes, rqInit,
      setAdd]; decide)
    (by decide) ?_
  intro p hp rsize hr
  rw [hbps] at hp
  simp only [List.mem_cons, List.mem_singleton, List.not_mem_nil, or_false] at hp
  rcases hp with rfl | rfl <;>
  · simp only [lookupSize, chimSizes] at hr
    simp at hr
    subst hr
    norm_num

end Benchmark
